import Mathlib

/-!
Shallow embedding of the translation dispatch / whitelist routing core of
`telegram-groupchat-translator` (src/index.js), together with proofs of the
behavioural properties claimed for it.

JavaScript strings are modelled as Lean `String`; JS objects used as
string-keyed maps are modelled as insertion-ordered association lists;
`undefined`/`null`-able values are `Option`; async provider calls are
modelled as attempt-indexed oracles; thrown errors are `Except.error`.
-/

namespace TgTranslator

/-! ## JavaScript primitives -/

/-- JS truthiness of a possibly-absent number (`undefined`, `null`, `NaN`
and `0` are falsy; absent/NaN are both collapsed into `none`). -/
def truthyNat : Option Nat → Bool
  | none => false
  | some n => n != 0

/-- JS truthiness of a possibly-absent string (`undefined`, `null` and the
empty string are falsy). -/
def truthyStr : Option String → Bool
  | none => false
  | some s => s != ""

/-- JS `a || d` where `a` is a possibly-absent string and `d` a string
default: yields `a` when truthy, else `d`. -/
def jsOrStr : Option String → String → String
  | none, d => d
  | some s, d => if s == "" then d else s

/-- JS `a || b` where both sides are possibly-absent strings (the falsy
result of the right operand is returned as-is, as in JS). -/
def jsOrOpt : Option String → Option String → Option String
  | none, b => b
  | some s, b => if s == "" then b else some s

/-- JS `String(x)` for `ctx.from?.id`: a number renders in decimal,
`undefined` renders as the string literal. -/
def jsStringOfId : Option Nat → String
  | none => "undefined"
  | some n => toString n

/-- JS whitespace predicate used by `String.prototype.trim` (restricted to
the ASCII whitespace the bot's inputs use). -/
def isWS (c : Char) : Bool := c.isWhitespace

/-- JS `s.trim()`: strips leading and trailing whitespace. -/
def jsTrim (s : String) : String :=
  ⟨(((s.data.dropWhile isWS).reverse.dropWhile isWS).reverse)⟩

/-- JS `s.split(' ')` on a single-space separator (empty tokens are kept,
`''.split(' ')` is `['']`). -/
def jsSplitSpaceAux : List Char → List Char → List String
  | [], cur => [⟨cur.reverse⟩]
  | c :: rest, cur =>
    if c = ' ' then ⟨cur.reverse⟩ :: jsSplitSpaceAux rest []
    else jsSplitSpaceAux rest (c :: cur)

/-- JS `s.split(' ')`. -/
def jsSplitSpace (s : String) : List String :=
  jsSplitSpaceAux s.data []

/-- JS `s.startsWith(pre)`. -/
def jsStartsWith (s pre : String) : Bool :=
  pre.data.isPrefixOf s.data

/-- JS `s.endsWith(suf)`. -/
def jsEndsWith (s suf : String) : Bool :=
  suf.data.isSuffixOf s.data

/-- JS `s.toLowerCase()` (ASCII range, which is all the bot compares). -/
def jsToLower (s : String) : String :=
  ⟨s.data.map Char.toLower⟩

/-- JS `Number(s)` restricted to the whitelist keys it is applied to:
digit-only strings yield their decimal value, anything else (`NaN`, and
the empty string whose JS value `0` is equally falsy downstream) yields
`none`. -/
def jsToNat (s : String) : Option Nat :=
  if s.length > 0 && s.data.all Char.isDigit then
    some (s.data.foldl (fun acc c => acc * 10 + (c.toNat - 48)) 0)
  else none

/-! ## Data model: whitelist entries and the in-memory mapping -/

/-- The value stored in `userWhitelist[id]` (src/index.js:81-86). -/
structure WLEntry where
  target_lang : String
  service : String
  pronouns : String
  comment : String
deriving DecidableEq, Repr

/-- `userWhitelist`: a JS object keyed by strings, modelled as an
insertion-ordered association list. -/
abbrev Whitelist := List (String × WLEntry)

/-- JS property read `w[k]`. -/
def wlGet (w : Whitelist) (k : String) : Option WLEntry :=
  (w.find? (fun p => p.1 == k)).map (·.2)

/-- JS property write `w[k] = v`: overwrites in place when the key exists,
else appends (JS objects keep insertion order for string keys). -/
def wlSet (w : Whitelist) (k : String) (v : WLEntry) : Whitelist :=
  if w.any (fun p => p.1 == k) then
    w.map (fun p => if p.1 == k then (k, v) else p)
  else
    w ++ [(k, v)]

/-- JS `delete w[k]`. -/
def wlRemove (w : Whitelist) (k : String) : Whitelist :=
  w.filter (fun p => p.1 != k)

/-! ## Persistence: whitelist.json load and save -/

/-- One element of the persisted `users` array.  Each field may be absent;
for `id`, JS falsy non-numbers (`null`, `NaN`) are collapsed into `none`
since the loader treats them all alike. -/
structure RawUser where
  id : Option Nat
  target_lang : Option String
  service : Option String
  pronouns : Option String
  comment : Option String
deriving DecidableEq, Repr

/-- The parsed top-level document: `users` is present iff
`Array.isArray(data.users)` holds. -/
structure RawData where
  users : Option (List RawUser)
deriving DecidableEq, Repr

/-- Processing of a single `users` element inside the load loop
(src/index.js:78-88): required fields must be truthy, `service` is
lowercased, `pronouns`/`comment` get their `||` defaults. -/
def loadStep (acc : Whitelist) (u : RawUser) : Whitelist :=
  match u.id, u.target_lang, u.service with
  | some i, some tl, some sv =>
      if i != 0 && tl != "" && sv != "" then
        wlSet acc (toString i)
          ⟨tl, jsToLower sv, jsOrStr u.pronouns "none", jsOrStr u.comment ""⟩
      else acc
  | _, _, _ => acc

/-- `load()` (src/index.js:72-93): a read/parse failure (`Except.error`)
is caught and leaves the mapping empty; a document whose `users` is not an
array also leaves it empty; otherwise each array element is folded in. -/
def loadWhitelist (input : Except String RawData) : Whitelist :=
  match input with
  | .error _ => []
  | .ok data =>
    match data.users with
    | none => []
    | some users => users.foldl loadStep []

/-- `saveWhitelistToFile` (src/index.js:96-113): serializes the mapping
back to a `users` array, converting each key with `Number(id)`
(`jsToNat`; a non-numeric key would give `NaN`, i.e. `none`). -/
def saveWhitelist (w : Whitelist) : List RawUser :=
  w.map (fun p =>
    { id := jsToNat p.1
      target_lang := some p.2.target_lang
      service := some p.2.service
      pronouns := some p.2.pronouns
      comment := some p.2.comment })

/-! ## Translation dispatcher -/

/-- Errors thrown on the translation path. -/
inductive TrErr where
  | unknownService (s : String)
  | provider (msg : String)
deriving DecidableEq, Repr

/-- An adapter oracle: the outcome of the n-th network call for given
text and target language (network nondeterminism indexed by attempt). -/
abbrev DeepLOracle := String → String → Nat → Except TrErr String

/-- The LLM adapter oracle additionally receives the reply context and
pronouns that `callChatGPT` is given. -/
abbrev ChatGPTOracle := String → String → String → String → Nat → Except TrErr String

/-- The body of one loop iteration of `translateText`
(src/index.js:208-218): adapter selection by `service`, unknown service
throws. -/
def translateAttempt (deepl : DeepLOracle) (chatgpt : ChatGPTOracle)
    (text targetLang service repliedText pronouns : String) (attempt : Nat) :
    Except TrErr String :=
  if service == "deepl" then deepl text targetLang attempt
  else if service == "chatgpt" then chatgpt text targetLang repliedText pronouns attempt
  else .error (.unknownService service)

/-- `translateText` (src/index.js:205-227) with `MAX_TRIES = 3` unrolled:
a caught error on attempts 1 and 2 is swallowed and the loop continues; on
attempt 3 it is rethrown.  The second component counts the loop iterations
entered. -/
def translateText (deepl : DeepLOracle) (chatgpt : ChatGPTOracle)
    (text targetLang service repliedText pronouns : String) :
    Except TrErr String × Nat :=
  match translateAttempt deepl chatgpt text targetLang service repliedText pronouns 1 with
  | .ok t => (.ok t, 1)
  | .error _ =>
    match translateAttempt deepl chatgpt text targetLang service repliedText pronouns 2 with
    | .ok t => (.ok t, 2)
    | .error _ =>
      match translateAttempt deepl chatgpt text targetLang service repliedText pronouns 3 with
      | .ok t => (.ok t, 3)
      | .error e => (.error e, 3)

/-! ## LLM adapter: prompt and message construction (`callChatGPT`) -/

/-- `OPENAI_PROMPT` (src/index.js:34-37). -/
def OPENAI_PROMPT : String :=
  "You are a helpful AI that translates user messages into language code %TARGET_LANG%. Rules:\n - slang and informal wording are acceptable, be casual but precise\n - output only the translated message and nothing else\n - if the text is already in that language, return it as-is"

/-- `OPENAI_CONTEXT_PROMPT` (src/index.js:39). -/
def OPENAI_CONTEXT_PROMPT : String :=
  " - the message is a reply to another message, marked with '[TranslateContext]' and '[EndTranslateContext]', use it to improve the translation"

/-- `OPENAI_PRONOUNS_PROMPT` (src/index.js:40). -/
def OPENAI_PRONOUNS_PROMPT : String :=
  " - user pronouns are %PRONOUNS%, use them to translate with correct gender"

/-- A chat-completion message role. -/
inductive Role where
  | system
  | user
deriving DecidableEq, Repr

/-- One element of the `messages` array sent to the LLM. -/
structure ChatMsg where
  role : Role
  content : String
deriving DecidableEq, Repr

/-- The `messages` array built by `callChatGPT` (src/index.js:147-185),
mirroring the imperative construction: the prompt accumulates the optional
context clause (reply text non-empty after trimming AND the global
`OPENAI_USE_CONTEXT` flag) and the optional pronoun clause
(`pronouns !== 'none'`); the wrapped reply context is pushed as its own
user turn before the user's text under the same condition. -/
def chatGPTMessages (text targetLang repliedText pronouns : String)
    (useContext : Bool) : List ChatMsg :=
  let prompt := OPENAI_PROMPT.replace "%TARGET_LANG%" targetLang
  let ctxOn := decide (0 < (jsTrim repliedText).length) && useContext
  let prompt := if ctxOn then prompt ++ "\n" ++ OPENAI_CONTEXT_PROMPT else prompt
  let replyContext :=
    if ctxOn then "[TranslateContext] " ++ repliedText ++ " [EndTranslateContext]" else ""
  let prompt :=
    if pronouns != "none" then
      prompt ++ "\n" ++ OPENAI_PRONOUNS_PROMPT.replace "%PRONOUNS%" pronouns
    else prompt
  let messages : List ChatMsg := [⟨Role.system, prompt⟩]
  let messages := if ctxOn then messages ++ [⟨Role.user, replyContext⟩] else messages
  messages ++ [⟨Role.user, text⟩]

/-- Handling of the provider response in `callChatGPT`
(src/index.js:193-197): a truthy `choices[0].message.content` is returned
trimmed, any other shape throws. -/
def parseChatGPTResponse (content : Option String) : Except TrErr String :=
  match content with
  | some c => if c != "" then .ok (jsTrim c) else .error (.provider "Invalid ChatGPT response format")
  | none => .error (.provider "Invalid ChatGPT response format")

/-! ## Message router (`bot.on('message')`) -/

/-- `INTRO` (src/index.js:16-24). -/
def INTRO : String :=
  "Hello! This is a private translation bot. If you have admin rights you can use these commands:\n  /whitelist - to display current whitelist\n  /whitelist_add - to add or edit a user in the whitelist\n  /whitelist_remove - to remove a user from the whitelist\n\nOtherwise you can set up your own instance, more info here:\nhttps://github.com/deseven/telegram-groupchat-translator\n\nYour User ID is %USER_ID%."

/-- A call to `ctx.reply`: the text sent and the optional
`reply_to_message_id`. -/
structure ReplyMsg where
  text : String
  replyTo : Option Nat
deriving DecidableEq, Repr

/-- The fields of an incoming Telegram message event the router inspects.
`replyTo` is `ctx.message.reply_to_message` (text and caption of the
replied-to message, each possibly absent). -/
structure TgMessage where
  fromId : Option Nat
  chatType : Option String
  text : Option String
  caption : Option String
  messageId : Nat
  replyTo : Option (Option String × Option String)
deriving Repr

/-- The observable outcome of handling one message event: replies sent,
the whitelist afterwards, how many times `saveWhitelistToFile` ran, and
how many times `translateText` was invoked. -/
structure RouterResult where
  replies : List ReplyMsg
  whitelist : Whitelist
  saves : Nat
  translateCalls : Nat
deriving Repr

/-- Outcome of one admin command branch. -/
structure AdminResult where
  reply : String
  whitelist : Whitelist
  saves : Nat
deriving Repr

/-- `trimmedText.split(' ').slice(1)`: the space-delimited argument tokens
of an admin command (JS `split(' ')` keeps empty tokens, as `splitOn`
does). -/
def cmdParts (trimmedText : String) : List String :=
  (jsSplitSpace trimmedText).drop 1

/-- The regex test `/^\d+$/.test(s)`. -/
def isNumericArg (s : String) : Bool :=
  s.length > 0 && s.data.all Char.isDigit

/-- The regex test `/^[a-zA-Z-]+$/.test(s)`. -/
def isLangArg (s : String) : Bool :=
  s.length > 0 && s.data.all (fun c => c.isAlpha || c == '-')

/-- The `/whitelist_add` branch (src/index.js:261-298): token-count check,
then USER_ID, TARGET_LANG and SERVICE validation, then upsert + save.
Destructuring defaults apply only to absent tokens (`getD` beyond the list
length), exactly as JS destructuring defaults apply only to `undefined`. -/
def whitelistAddCmd (trimmedText : String) (w : Whitelist) : AdminResult :=
  let parts := cmdParts trimmedText
  if parts.length < 3 ∨ parts.length > 5 then
    ⟨"Usage: /whitelist_add USER_ID TARGET_LANG SERVICE [PRONOUNS] [COMMENT]", w, 0⟩
  else
    let userIdArg := parts.getD 0 ""
    let targetLangArg := parts.getD 1 ""
    let serviceArg := parts.getD 2 ""
    let pronounsArg := parts.getD 3 "none"
    let commentArg := parts.getD 4 ""
    if isNumericArg userIdArg = false then
      ⟨"Error: USER_ID must be numeric.", w, 0⟩
    else if isLangArg targetLangArg = false then
      ⟨"Error: TARGET_LANG must contain only letters and hyphens.", w, 0⟩
    else
      let normalizedServiceArg := jsToLower serviceArg
      if normalizedServiceArg ≠ "chatgpt" ∧ normalizedServiceArg ≠ "deepl" then
        ⟨"Error: SERVICE must be either \x22chatgpt\x22 or \x22deepl\x22.", w, 0⟩
      else
        ⟨"User " ++ userIdArg ++ " added/updated. target_lang=" ++ targetLangArg
            ++ ", service=" ++ normalizedServiceArg ++ ", pronouns=" ++ pronounsArg
            ++ ", comment=" ++ commentArg,
          wlSet w userIdArg ⟨targetLangArg, normalizedServiceArg, pronounsArg, commentArg⟩, 1⟩

/-- The `/whitelist_remove` branch (src/index.js:301-318). -/
def whitelistRemoveCmd (trimmedText : String) (w : Whitelist) : AdminResult :=
  let parts := cmdParts trimmedText
  if parts.length ≠ 1 then
    ⟨"Usage: /whitelist_remove USER_ID", w, 0⟩
  else
    let userIdArg := parts.getD 0 ""
    match wlGet w userIdArg with
    | some _ => ⟨"User " ++ userIdArg ++ " removed from the whitelist.", wlRemove w userIdArg, 1⟩
    | none => ⟨"User " ++ userIdArg ++ " not found in the whitelist.", w, 0⟩

/-- The `/whitelist` reply body (src/index.js:320-330): a rendered dump of
all current entries.  The exact `prettyjson` text layout is not modelled
(no property here concerns it); the rendering below lists every entry with
all its fields, which is what the branch observably does. -/
def renderWhitelist (w : Whitelist) : String :=
  String.intercalate "\n" (w.map (fun p =>
    "id: " ++ p.1 ++ " target_lang: " ++ p.2.target_lang ++ " service: " ++ p.2.service
      ++ " pronouns: " ++ p.2.pronouns ++ " comment: " ++ p.2.comment))

/-- The dispatcher as the router sees it: text, target language, service,
replied text, pronouns, to either a translation or a thrown error. -/
abbrev Translator := String → String → String → String → String → Except TrErr String

/-- The group-chat translation branch (src/index.js:334-380): commands are
skipped, non-whitelisted senders are skipped, otherwise `translateText`
runs once; an identical result suppresses the reply, a thrown error is
answered with the fixed text. -/
def groupBranch (tr : Translator) (w : Whitelist) (msg : TgMessage)
    (messageText trimmedText : String) : RouterResult :=
  match msg.chatType with
  | none => ⟨[], w, 0, 0⟩
  | some ct =>
    if jsEndsWith ct "group" then
      if jsStartsWith trimmedText "/" then ⟨[], w, 0, 0⟩
      else
        match wlGet w (jsStringOfId msg.fromId) with
        | none => ⟨[], w, 0, 0⟩
        | some entry =>
          let repliedMessageText :=
            match msg.replyTo with
            | none => ""
            | some (t, c) => jsOrStr t (jsOrStr c "")
          match tr messageText entry.target_lang entry.service repliedMessageText entry.pronouns with
          | .ok translated =>
            if translated == messageText then ⟨[], w, 0, 1⟩
            else ⟨[⟨translated, some msg.messageId⟩], w, 0, 1⟩
          | .error _ => ⟨[⟨"Translation failed", some msg.messageId⟩], w, 0, 1⟩
    else ⟨[], w, 0, 0⟩

/-- The unified message handler (src/index.js:242-382), sequencing the
early-return checks exactly as the source does: missing text/caption,
`/start` `/help` in private, the admin command block (private chat and
sender id rendering equal to the admin id), then the group branch. -/
def handleMessage (adminId : Nat) (tr : Translator) (w : Whitelist)
    (msg : TgMessage) : RouterResult :=
  match jsOrOpt msg.text msg.caption with
  | none => ⟨[], w, 0, 0⟩
  | some messageText =>
    if messageText == "" then ⟨[], w, 0, 0⟩
    else
      let trimmedText := jsTrim messageText
      if msg.chatType == some "private"
          && (trimmedText == "/start" || trimmedText == "/help") then
        ⟨[⟨INTRO.replace "%USER_ID%" (jsStringOfId msg.fromId), none⟩], w, 0, 0⟩
      else if msg.chatType == some "private"
          && jsStringOfId msg.fromId == toString adminId then
        if jsStartsWith trimmedText "/whitelist_add" then
          let r := whitelistAddCmd trimmedText w
          ⟨[⟨r.reply, none⟩], r.whitelist, r.saves, 0⟩
        else if jsStartsWith trimmedText "/whitelist_remove" then
          let r := whitelistRemoveCmd trimmedText w
          ⟨[⟨r.reply, none⟩], r.whitelist, r.saves, 0⟩
        else if trimmedText == "/whitelist" then
          ⟨[⟨"Current whitelist:\n" ++ renderWhitelist w, none⟩], w, 0, 0⟩
        else groupBranch tr w msg messageText trimmedText
      else groupBranch tr w msg messageText trimmedText

/-! ## Claims about the dispatcher -/

/-- C1 counterexample: with service `"carrierpigeon"` the dispatcher does
NOT stop after 1 attempt: the unknown-service error is thrown inside the
`try`, caught, and only rethrown on the third loop iteration, so 3
attempts are made (the claim says exactly 1). -/
theorem c1_counterexample :
    (translateText (fun _ _ _ => .ok "x") (fun _ _ _ _ _ => .ok "x")
        "hello" "FR" "carrierpigeon" "" "none"
      = (.error (.unknownService "carrierpigeon"), 3))
    ∧ (translateText (fun _ _ _ => .ok "x") (fun _ _ _ _ _ => .ok "x")
        "hello" "FR" "carrierpigeon" "" "none").2 ≠ 1 := by
  exact ⟨rfl, by decide⟩

/-- C1 (amended): for every pair of adapter oracles and every input, a
service value that is neither `"deepl"` nor `"chatgpt"` makes the
dispatcher run all 3 loop attempts — invoking no adapter, as the result is
the same for every oracle — and then propagate the unknown-service
configuration error to the caller. -/
theorem c1_unknown_service_three_attempts
    (deepl : DeepLOracle) (chatgpt : ChatGPTOracle)
    (text targetLang service repliedText pronouns : String)
    (h1 : service ≠ "deepl") (h2 : service ≠ "chatgpt") :
    translateText deepl chatgpt text targetLang service repliedText pronouns
      = (.error (.unknownService service), 3) := by
  simp [translateText, translateAttempt, h1, h2]

/-- C1 witness: the amended theorem applied at service `"smokesignals"`. -/
theorem c1_witness :
    translateText (fun _ _ _ => .error (.provider "down")) (fun _ _ _ _ _ => .ok "y")
        "hi" "DE" "smokesignals" "ctx" "she"
      = (.error (.unknownService "smokesignals"), 3) :=
  c1_unknown_service_three_attempts _ _ "hi" "DE" "smokesignals" "ctx" "she"
    (by decide) (by decide)

/-- C2: if the DeepL adapter fails on every call, the dispatcher with
service `"deepl"` makes exactly 3 sequential attempts and propagates the
error of the third attempt; the budget of 3 is fixed for every call
(universally quantified input). -/
theorem c2_failing_adapter_three_attempts
    (deepl : DeepLOracle) (chatgpt : ChatGPTOracle)
    (text targetLang repliedText pronouns : String) (errs : Nat → TrErr)
    (h : ∀ n, deepl text targetLang n = .error (errs n)) :
    translateText deepl chatgpt text targetLang "deepl" repliedText pronouns
      = (.error (errs 3), 3) := by
  simp [translateText, translateAttempt, h]

/-- C2 witness: a concrete always-failing DeepL oracle. -/
theorem c2_witness :
    translateText (fun _ _ n => .error (.provider (toString n))) (fun _ _ _ _ _ => .ok "y")
        "hello" "FR" "deepl" "" "none"
      = (.error (.provider "3"), 3) :=
  c2_failing_adapter_three_attempts _ _ "hello" "FR" "" "none"
    (fun n => .provider (toString n)) (fun _ => rfl)

/-! ## Helper lemmas about trimming -/

theorem string_length_pos_iff (s : String) : 0 < s.length ↔ s ≠ "" := by
  constructor
  · intro h heq
    subst heq
    exact absurd h (by decide)
  · intro h
    cases s with
    | mk l =>
      cases l with
      | nil => exact absurd rfl h
      | cons c t => simp [String.length]

theorem head?_dropWhile_false {α : Type} {p : α → Bool} {l : List α} {a : α}
    (h : (l.dropWhile p).head? = some a) : p a = false := by
  have hx := List.head?_dropWhile_not p l
  rw [h] at hx
  exact hx

theorem getLast?_dropWhile_of_ne_nil {α : Type} {p : α → Bool} :
    ∀ l : List α, l.dropWhile p ≠ [] → (l.dropWhile p).getLast? = l.getLast? := by
  intro l
  induction l with
  | nil => intro h; exact absurd rfl h
  | cons a t ih =>
    intro hne
    rw [List.dropWhile_cons] at hne ⊢
    by_cases hpa : p a = true
    · rw [if_pos hpa] at hne ⊢
      rw [ih hne]
      cases t with
      | nil => exact absurd rfl hne
      | cons b t2 => exact (List.getLast?_cons_cons).symm
    · rw [if_neg hpa]

theorem jsTrim_data (s : String) :
    (jsTrim s).data = ((s.data.dropWhile isWS).reverse.dropWhile isWS).reverse := rfl

/-- The trimmed string never ends in whitespace. -/
theorem jsTrim_getLast_not_ws {s : String} {ch : Char}
    (h : (jsTrim s).data.getLast? = some ch) : isWS ch = false := by
  rw [jsTrim_data, List.getLast?_reverse] at h
  exact head?_dropWhile_false h

/-- The trimmed string never starts with whitespace. -/
theorem jsTrim_head_not_ws {s : String} {ch : Char}
    (h : (jsTrim s).data.head? = some ch) : isWS ch = false := by
  rw [jsTrim_data, List.head?_reverse] at h
  have hne : (s.data.dropWhile isWS).reverse.dropWhile isWS ≠ [] := by
    intro hnil
    rw [hnil] at h
    exact Option.noConfusion h
  rw [getLast?_dropWhile_of_ne_nil _ hne, List.getLast?_reverse] at h
  exact head?_dropWhile_false h

/-! ## Claims about the LLM adapter -/

/-- C8: in the `messages` array built by `callChatGPT`, the reply-target
text appears — wrapped in the `[TranslateContext]`/`[EndTranslateContext]`
sentinels — as a separate user turn before the user's text iff the global
use-context flag is on and the reply text is non-empty after trimming
(equivalently, the array has 3 turns rather than 2); and the system
instruction carries the context-usage clause under exactly that condition
and the pronoun clause exactly when pronouns differ from `"none"`. -/
theorem c8_chatgpt_prompt_construction
    (text targetLang repliedText pronouns : String) (useContext : Bool) :
    ((chatGPTMessages text targetLang repliedText pronouns useContext).length = 3
        ↔ (useContext = true ∧ jsTrim repliedText ≠ ""))
    ∧ ((useContext = true ∧ jsTrim repliedText ≠ "") →
        (chatGPTMessages text targetLang repliedText pronouns useContext).get? 1
          = some ⟨Role.user, "[TranslateContext] " ++ repliedText ++ " [EndTranslateContext]"⟩)
    ∧ ((chatGPTMessages text targetLang repliedText pronouns useContext).head?
        = some ⟨Role.system,
            OPENAI_PROMPT.replace "%TARGET_LANG%" targetLang
              ++ (if useContext = true ∧ jsTrim repliedText ≠ ""
                  then "\n" ++ OPENAI_CONTEXT_PROMPT else "")
              ++ (if pronouns ≠ "none"
                  then "\n" ++ OPENAI_PRONOUNS_PROMPT.replace "%PRONOUNS%" pronouns else "")⟩)
    ∧ ((chatGPTMessages text targetLang repliedText pronouns useContext).getLast?
        = some ⟨Role.user, text⟩) := by
  by_cases hc : useContext = true ∧ jsTrim repliedText ≠ ""
  · obtain ⟨hu, hne⟩ := hc
    have hlen : 0 < (jsTrim repliedText).length := (string_length_pos_iff _).mpr hne
    by_cases hp : pronouns = "none"
    · simp [chatGPTMessages, hu, hne, hlen, hp, String.append_assoc]
    · simp [chatGPTMessages, hu, hne, hlen, hp, String.append_assoc]
  · by_cases hu : useContext = true
    · have he : jsTrim repliedText = "" := by
        by_contra hne
        exact hc ⟨hu, hne⟩
      have hlen : ¬ 0 < (jsTrim repliedText).length := by
        rw [he]
        decide
      by_cases hp : pronouns = "none"
      · simp [chatGPTMessages, hu, he, hlen, hp, String.append_assoc]
      · simp [chatGPTMessages, hu, he, hlen, hp, String.append_assoc]
    · have hu2 : useContext = false := by
        rcases Bool.eq_false_or_eq_true useContext with h | h
        · exact absurd h hu
        · exact h
      by_cases hp : pronouns = "none"
      · simp [chatGPTMessages, hu2, hc, hp, String.append_assoc]
      · simp [chatGPTMessages, hu2, hc, hp, String.append_assoc]

/-- C8 witness: the theorem applied at a concrete input with context on
and pronouns set. -/
theorem c8_witness :
    (chatGPTMessages "hola" "EN" "prior message" "she/her" true).get? 1
      = some ⟨Role.user, "[TranslateContext] " ++ "prior message" ++ " [EndTranslateContext]"⟩ :=
  (c8_chatgpt_prompt_construction "hola" "EN" "prior message" "she/her" true).2.1
    ⟨rfl, by decide⟩

/-- C10 (implicit): every accepted LLM response yields the model content
trimmed of leading and trailing whitespace, so the returned translation
never starts or ends with whitespace (while the router's identical-text
suppression compares it against the untrimmed source). -/
theorem c10_chatgpt_result_trimmed (content : Option String) (out : String)
    (h : parseChatGPTResponse content = .ok out) :
    (∃ c, content = some c ∧ out = jsTrim c)
    ∧ (∀ ch, out.data.head? = some ch → isWS ch = false)
    ∧ (∀ ch, out.data.getLast? = some ch → isWS ch = false) := by
  match content with
  | none => exact absurd h (by simp [parseChatGPTResponse])
  | some c =>
    rw [parseChatGPTResponse] at h
    by_cases hc : c = ""
    · rw [if_neg (by simp [hc])] at h
      exact Except.noConfusion h
    · rw [if_pos (by simp [hc])] at h
      have hout : out = jsTrim c := (Except.ok.injEq _ _).mp h.symm
      subst hout
      exact ⟨⟨c, rfl, rfl⟩, fun ch hch => jsTrim_head_not_ws hch,
        fun ch hch => jsTrim_getLast_not_ws hch⟩

/-- C10 witness: a concrete response with surrounding whitespace. -/
theorem c10_witness :
    ∃ c, (some "  bonjour " : Option String) = some c ∧ "bonjour" = jsTrim c :=
  (c10_chatgpt_result_trimmed (some "  bonjour ") "bonjour" (by rfl)).1

/-! ## Claims about the admin command handler and the router -/

/-- C3: every `/whitelist_add` whose arguments fail validation — wrong
token count, non-numeric USER_ID, ill-formed TARGET_LANG, or a SERVICE not
normalizing to `chatgpt`/`deepl` — replies with its specific usage/error
message and leaves the whitelist mapping untouched with no save. -/
theorem c3_whitelist_add_invalid_no_mutation (t : String) (w : Whitelist) :
    (((cmdParts t).length < 3 ∨ (cmdParts t).length > 5) →
        whitelistAddCmd t w
          = ⟨"Usage: /whitelist_add USER_ID TARGET_LANG SERVICE [PRONOUNS] [COMMENT]", w, 0⟩)
    ∧ (¬((cmdParts t).length < 3 ∨ (cmdParts t).length > 5) →
        isNumericArg ((cmdParts t).getD 0 "") = false →
        whitelistAddCmd t w = ⟨"Error: USER_ID must be numeric.", w, 0⟩)
    ∧ (¬((cmdParts t).length < 3 ∨ (cmdParts t).length > 5) →
        isNumericArg ((cmdParts t).getD 0 "") = true →
        isLangArg ((cmdParts t).getD 1 "") = false →
        whitelistAddCmd t w
          = ⟨"Error: TARGET_LANG must contain only letters and hyphens.", w, 0⟩)
    ∧ (¬((cmdParts t).length < 3 ∨ (cmdParts t).length > 5) →
        isNumericArg ((cmdParts t).getD 0 "") = true →
        isLangArg ((cmdParts t).getD 1 "") = true →
        jsToLower ((cmdParts t).getD 2 "") ≠ "chatgpt" →
        jsToLower ((cmdParts t).getD 2 "") ≠ "deepl" →
        whitelistAddCmd t w
          = ⟨"Error: SERVICE must be either \x22chatgpt\x22 or \x22deepl\x22.", w, 0⟩) := by
  refine ⟨fun h1 => ?_, fun h1 h2 => ?_, fun h1 h2 h3 => ?_, fun h1 h2 h3 h4 h5 => ?_⟩
  · simp [whitelistAddCmd, h1]
  · simp only [List.getD_eq_getElem?_getD] at h2
    simp [whitelistAddCmd, h1, h2]
  · simp only [List.getD_eq_getElem?_getD] at h2 h3
    simp [whitelistAddCmd, h1, h2, h3]
  · simp only [List.getD_eq_getElem?_getD] at h2 h3 h4 h5
    simp [whitelistAddCmd, h1, h2, h3, h4, h5]

/-- C3 witness: the spec's own example, `whitelist_add` with USER_ID
`"abc"`, on a non-empty whitelist. -/
theorem c3_witness :
    whitelistAddCmd "/whitelist_add abc FR deepl" [("5", ⟨"EN", "deepl", "none", ""⟩)]
      = ⟨"Error: USER_ID must be numeric.", [("5", ⟨"EN", "deepl", "none", ""⟩)], 0⟩ :=
  (c3_whitelist_add_invalid_no_mutation "/whitelist_add abc FR deepl"
      [("5", ⟨"EN", "deepl", "none", ""⟩)]).2.1 (by decide) (by decide)

/-- C6: on a group-like message with non-empty text from a whitelisted
sender, when the dispatcher returns text identical to the source text the
router sends no reply and changes no state. -/
theorem c6_identical_translation_no_reply
    (adminId : Nat) (tr : Translator) (w : Whitelist) (msg : TgMessage)
    (ct mt : String) (entry : WLEntry)
    (hmt : jsOrOpt msg.text msg.caption = some mt) (hne : mt ≠ "")
    (hct : msg.chatType = some ct) (hgrp : jsEndsWith ct "group" = true)
    (hwl : wlGet w (jsStringOfId msg.fromId) = some entry)
    (htr : ∀ replied, tr mt entry.target_lang entry.service replied entry.pronouns = .ok mt) :
    (handleMessage adminId tr w msg).replies = []
    ∧ (handleMessage adminId tr w msg).whitelist = w
    ∧ (handleMessage adminId tr w msg).saves = 0 := by
  have hctp : ct ≠ "private" := by
    intro h
    subst h
    exact absurd hgrp (by decide)
  by_cases hcmd : jsStartsWith (jsTrim mt) "/" = true
  · simp [handleMessage, groupBranch, hmt, hne, hctp, hct, hgrp, hcmd]
  · simp [handleMessage, groupBranch, hmt, hne, hctp, hct, hgrp, hcmd, hwl, htr]

/-- C6 witness: a supergroup message whose translator echoes its input. -/
theorem c6_witness :
    (handleMessage 1 (fun t _ _ _ _ => .ok t) [("42", ⟨"FR", "deepl", "none", ""⟩)]
        ⟨some 42, some "supergroup", some "hello", none, 7, none⟩).replies = [] :=
  (c6_identical_translation_no_reply 1 (fun t _ _ _ _ => .ok t)
      [("42", ⟨"FR", "deepl", "none", ""⟩)]
      ⟨some 42, some "supergroup", some "hello", none, 7, none⟩
      "supergroup" "hello" ⟨"FR", "deepl", "none", ""⟩
      rfl (by decide) rfl (by decide) rfl (fun _ => rfl)).1

/-- C7: on a group-like non-command message with non-empty text from a
whitelisted sender, a dispatcher failure makes the router reply exactly
the fixed text `Translation failed`, addressed to the original message —
never a silent drop, and with no dependence on the error's content
(the error is an arbitrary function of the reply context). -/
theorem c7_translation_failure_fixed_reply
    (adminId : Nat) (tr : Translator) (w : Whitelist) (msg : TgMessage)
    (ct mt : String) (entry : WLEntry) (errOf : String → TrErr)
    (hmt : jsOrOpt msg.text msg.caption = some mt) (hne : mt ≠ "")
    (hct : msg.chatType = some ct) (hgrp : jsEndsWith ct "group" = true)
    (hcmd : jsStartsWith (jsTrim mt) "/" = false)
    (hwl : wlGet w (jsStringOfId msg.fromId) = some entry)
    (htr : ∀ replied, tr mt entry.target_lang entry.service replied entry.pronouns
        = .error (errOf replied)) :
    (handleMessage adminId tr w msg).replies = [⟨"Translation failed", some msg.messageId⟩]
    ∧ (handleMessage adminId tr w msg).whitelist = w
    ∧ (handleMessage adminId tr w msg).saves = 0 := by
  have hctp : ct ≠ "private" := by
    intro h
    subst h
    exact absurd hgrp (by decide)
  simp [handleMessage, groupBranch, hmt, hne, hctp, hct, hgrp, hcmd, hwl, htr]

/-- C7 witness: a concrete always-failing dispatcher. -/
theorem c7_witness :
    (handleMessage 1 (fun _ _ _ _ _ => .error (.provider "boom"))
        [("42", ⟨"FR", "deepl", "none", ""⟩)]
        ⟨some 42, some "group", some "hello", none, 9, none⟩).replies
      = [⟨"Translation failed", some 9⟩] :=
  (c7_translation_failure_fixed_reply 1 (fun _ _ _ _ _ => .error (.provider "boom"))
      [("42", ⟨"FR", "deepl", "none", ""⟩)]
      ⟨some 42, some "group", some "hello", none, 9, none⟩
      "group" "hello" ⟨"FR", "deepl", "none", ""⟩ (fun _ => .provider "boom")
      rfl (by decide) rfl (by decide) (by decide) rfl (fun _ => rfl)).1

/-- C9: a group-like message with non-empty text from a sender with no
whitelist entry yields no reply, no dispatcher call and no state change;
and a group-like message whose trimmed text starts with `/` is ignored and
never translated. -/
theorem c9_unwhitelisted_and_commands_ignored
    (adminId : Nat) (tr : Translator) (w : Whitelist) (msg : TgMessage)
    (ct mt : String)
    (hmt : jsOrOpt msg.text msg.caption = some mt) (hne : mt ≠ "")
    (hct : msg.chatType = some ct) (hgrp : jsEndsWith ct "group" = true) :
    (wlGet w (jsStringOfId msg.fromId) = none →
        handleMessage adminId tr w msg = ⟨[], w, 0, 0⟩)
    ∧ (jsStartsWith (jsTrim mt) "/" = true →
        handleMessage adminId tr w msg = ⟨[], w, 0, 0⟩) := by
  have hctp : ct ≠ "private" := by
    intro h
    subst h
    exact absurd hgrp (by decide)
  constructor
  · intro hwl
    by_cases hcmd : jsStartsWith (jsTrim mt) "/" = true
    · simp [handleMessage, groupBranch, hmt, hne, hctp, hct, hgrp, hcmd]
    · simp [handleMessage, groupBranch, hmt, hne, hctp, hct, hgrp, hcmd, hwl]
  · intro hcmd
    simp [handleMessage, groupBranch, hmt, hne, hctp, hct, hgrp, hcmd]

/-- C9 witness: an unknown sender's message and a command from a known
sender, both in a group. -/
theorem c9_witness :
    (handleMessage 1 (fun t _ _ _ _ => .ok t) [("42", ⟨"FR", "deepl", "none", ""⟩)]
        ⟨some 99, some "group", some "hello", none, 3, none⟩ = ⟨[], [("42", ⟨"FR", "deepl", "none", ""⟩)], 0, 0⟩)
    ∧ (handleMessage 1 (fun t _ _ _ _ => .ok t) [("42", ⟨"FR", "deepl", "none", ""⟩)]
        ⟨some 42, some "group", some "/stats now", none, 4, none⟩ = ⟨[], [("42", ⟨"FR", "deepl", "none", ""⟩)], 0, 0⟩) :=
  ⟨(c9_unwhitelisted_and_commands_ignored 1 (fun t _ _ _ _ => .ok t)
      [("42", ⟨"FR", "deepl", "none", ""⟩)]
      ⟨some 99, some "group", some "hello", none, 3, none⟩
      "group" "hello" rfl (by decide) rfl (by decide)).1 rfl,
   (c9_unwhitelisted_and_commands_ignored 1 (fun t _ _ _ _ => .ok t)
      [("42", ⟨"FR", "deepl", "none", ""⟩)]
      ⟨some 42, some "group", some "/stats now", none, 4, none⟩
      "group" "/stats now" rfl (by decide) rfl (by decide)).2 (by decide)⟩

/-! ## Lemmas about the whitelist map operations -/

theorem mem_wlSet {w : Whitelist} {k : String} {v : WLEntry} {p : String × WLEntry}
    (hp : p ∈ wlSet w k v) : (p ∈ w ∧ p.1 ≠ k) ∨ p = (k, v) := by
  unfold wlSet at hp
  by_cases h : w.any (fun q => q.1 == k) = true
  · rw [if_pos h] at hp
    obtain ⟨q, hq, hqe⟩ := List.mem_map.mp hp
    by_cases hk : q.1 = k
    · right
      rw [if_pos (by simp [hk])] at hqe
      exact hqe.symm
    · left
      rw [if_neg (by simp [hk])] at hqe
      subst hqe
      exact ⟨hq, hk⟩
  · rw [if_neg h] at hp
    rcases List.mem_append.mp hp with h1 | h1
    · left
      refine ⟨h1, fun hk => h ?_⟩
      exact List.any_eq_true.mpr ⟨p, h1, by simp [hk]⟩
    · right
      simpa using h1

theorem find?_map_replace_self (k : String) (v : WLEntry) :
    ∀ w : Whitelist, w.any (fun q => q.1 == k) = true →
      (w.map (fun q => if q.1 == k then (k, v) else q)).find? (fun p => p.1 == k)
        = some (k, v) := by
  intro w
  induction w with
  | nil => intro h; simp at h
  | cons q t ih =>
    intro h
    by_cases hk : q.1 = k
    · simp only [List.map_cons]
      rw [if_pos (by simp [hk])]
      exact List.find?_cons_of_pos _ (by simp)
    · simp only [List.map_cons]
      rw [if_neg (by simp [hk])]
      rw [List.find?_cons_of_neg _ (by simp [hk])]
      apply ih
      rcases List.any_eq_true.mp h with ⟨p, hp, hpk⟩
      rcases List.mem_cons.mp hp with hpq | hp2
      · exact absurd (by simpa [hpq] using hpk) hk
      · exact List.any_eq_true.mpr ⟨p, hp2, hpk⟩

/-- Writing a key makes it readable: `w[k] = v` then `w[k]` is `v`. -/
theorem wlGet_wlSet_self (w : Whitelist) (k : String) (v : WLEntry) :
    wlGet (wlSet w k v) k = some v := by
  unfold wlGet wlSet
  by_cases h : w.any (fun q => q.1 == k) = true
  · rw [if_pos h, find?_map_replace_self k v w h]
    rfl
  · rw [if_neg h, List.find?_append]
    have hw : w.find? (fun p => p.1 == k) = none := by
      rw [List.find?_eq_none]
      intro x hx hpx
      exact h (List.any_eq_true.mpr ⟨x, hx, hpx⟩)
    rw [hw]
    simp

/-- Writing key `j` leaves reads of a different key `k` unchanged. -/
theorem wlGet_wlSet_ne (w : Whitelist) (j k : String) (v : WLEntry) (hjk : j ≠ k) :
    wlGet (wlSet w j v) k = wlGet w k := by
  unfold wlGet wlSet
  by_cases h : w.any (fun q => q.1 == j) = true
  · rw [if_pos h]
    clear h
    induction w with
    | nil => rfl
    | cons q t ih =>
      by_cases hqj : q.1 = j
      · simp only [List.map_cons]
        rw [if_pos (by simp [hqj])]
        rw [List.find?_cons_of_neg _ (by simp [hjk])]
        rw [List.find?_cons_of_neg _ (by simp [hqj, hjk])]
        exact ih
      · simp only [List.map_cons]
        rw [if_neg (by simp [hqj])]
        by_cases hqk : q.1 = k
        · rw [List.find?_cons_of_pos _ (by simp [hqk]), List.find?_cons_of_pos _ (by simp [hqk])]
        · rw [List.find?_cons_of_neg _ (by simp [hqk]), List.find?_cons_of_neg _ (by simp [hqk])]
          exact ih
  · rw [if_neg h, List.find?_append]
    have hone : List.find? (fun p => p.1 == k) [(j, v)] = none := by
      simp [hjk]
    rw [hone]
    simp

/-- The written key is present afterwards. -/
theorem wlSet_any_self (w : Whitelist) (k : String) (v : WLEntry) :
    (wlSet w k v).any (fun p => p.1 == k) = true := by
  unfold wlSet
  by_cases h : w.any (fun q => q.1 == k) = true
  · rw [if_pos h]
    rcases List.any_eq_true.mp h with ⟨q, hq, hqk⟩
    refine List.any_eq_true.mpr ⟨(k, v), ?_, by simp⟩
    exact List.mem_map.mpr ⟨q, hq, by rw [if_pos hqk]⟩
  · rw [if_neg h]
    exact List.any_eq_true.mpr ⟨(k, v), by simp, by simp⟩

/-! ## Lemmas about `load()` -/

/-- The truthiness test `id && target_lang && service` of the load loop. -/
def hasRequired (u : RawUser) : Bool :=
  truthyNat u.id && truthyStr u.target_lang && truthyStr u.service

theorem loadStep_skip {u : RawUser} (h : hasRequired u = false) (acc : Whitelist) :
    loadStep acc u = acc := by
  obtain ⟨oid, otl, osv, opr, ocm⟩ := u
  cases oid with
  | none => rfl
  | some i =>
  cases otl with
  | none => rfl
  | some tl =>
  cases osv with
  | none => rfl
  | some sv =>
  simp only [hasRequired, truthyNat, truthyStr] at h
  simp only [loadStep]
  rw [if_neg (by simp [h])]

theorem loadStep_mem {acc : Whitelist} {u : RawUser} {p : String × WLEntry}
    (hp : p ∈ loadStep acc u) :
    p ∈ acc ∨ ∃ sv, u.service = some sv ∧ p.2.service = jsToLower sv := by
  obtain ⟨oid, otl, osv, opr, ocm⟩ := u
  cases oid with
  | none => exact Or.inl hp
  | some i =>
  cases otl with
  | none => exact Or.inl hp
  | some tl =>
  cases osv with
  | none => exact Or.inl hp
  | some sv =>
  simp only [loadStep] at hp
  by_cases hcond : (i != 0 && tl != "" && sv != "") = true
  · rw [if_pos hcond] at hp
    rcases mem_wlSet hp with ⟨hin, _⟩ | heq
    · exact Or.inl hin
    · right
      exact ⟨sv, rfl, by rw [heq]⟩
  · rw [if_neg hcond] at hp
    exact Or.inl hp

theorem load_fold_filter (users : List RawUser) :
    ∀ acc : Whitelist,
      users.foldl loadStep acc = (users.filter hasRequired).foldl loadStep acc := by
  induction users with
  | nil => intro acc; rfl
  | cons u rest ih =>
    intro acc
    by_cases h : hasRequired u = true
    · rw [List.foldl_cons, List.filter_cons_of_pos h, List.foldl_cons]
      exact ih _
    · have hf : hasRequired u = false := by
        rcases Bool.eq_false_or_eq_true (hasRequired u) with h2 | h2
        · exact absurd h2 h
        · exact h2
      rw [List.foldl_cons, List.filter_cons_of_neg (by simp [hf]), loadStep_skip hf]
      exact ih _

theorem load_fold_service (users : List RawUser) :
    ∀ (acc : Whitelist) (p : String × WLEntry), p ∈ users.foldl loadStep acc →
      p ∈ acc ∨ ∃ u, u ∈ users ∧ ∃ sv, u.service = some sv ∧ p.2.service = jsToLower sv := by
  induction users with
  | nil => intro acc p hp; exact Or.inl hp
  | cons u rest ih =>
    intro acc p hp
    rcases ih (loadStep acc u) p hp with h | h
    · rcases loadStep_mem h with h2 | h2
      · exact Or.inl h2
      · right
        obtain ⟨sv, hsv, hps⟩ := h2
        exact ⟨u, List.mem_cons_self u rest, sv, hsv, hps⟩
    · right
      obtain ⟨u2, hu2, hs⟩ := h
      exact ⟨u2, List.mem_cons_of_mem u hu2, hs⟩

/-! ## Claims about `load()` and the save/load round trip -/

/-- C4: `load()` yields an empty mapping on a read/parse failure or a
document without a `users` array; an entry missing any required field
fails the truthiness gate, and dropping all gate-failing entries does not
change the result (so such entries are excluded without failing the whole
load); and every kept entry's service is the lowercasing of the service
string of some source entry. -/
theorem c4_load_drops_incomplete_entries :
    (∀ e, loadWhitelist (.error e) = [])
    ∧ loadWhitelist (.ok ⟨none⟩) = []
    ∧ (∀ u : RawUser, u.id = none ∨ u.target_lang = none ∨ u.service = none →
        hasRequired u = false)
    ∧ (∀ users, loadWhitelist (.ok ⟨some users⟩)
        = loadWhitelist (.ok ⟨some (users.filter hasRequired)⟩))
    ∧ (∀ users p, p ∈ loadWhitelist (.ok ⟨some users⟩) →
        ∃ u, u ∈ users ∧ ∃ sv, u.service = some sv ∧ p.2.service = jsToLower sv) := by
  refine ⟨fun e => rfl, rfl, ?_, ?_, ?_⟩
  · intro u hu
    rcases hu with h | h | h <;> simp [hasRequired, truthyNat, truthyStr, h]
  · intro users
    exact load_fold_filter users []
  · intro users p hp
    rcases load_fold_service users [] p hp with h | h
    · exact absurd h (List.not_mem_nil p)
    · exact h

/-- C4 witness: a list with one incomplete and one complete entry loads
the same as the list filtered down to the complete one. -/
theorem c4_witness :
    loadWhitelist (.ok ⟨some [⟨some 5, none, some "DeepL", none, none⟩,
        ⟨some 6, some "EN", some "DeepL", none, none⟩]⟩)
      = loadWhitelist (.ok ⟨some ([⟨some 5, none, some "DeepL", none, none⟩,
          ⟨some 6, some "EN", some "DeepL", none, none⟩].filter hasRequired)⟩) :=
  c4_load_drops_incomplete_entries.2.2.2.1
    [⟨some 5, none, some "DeepL", none, none⟩, ⟨some 6, some "EN", some "DeepL", none, none⟩]

theorem jsOrStr_some_of_ne {s : String} (h : s ≠ "") (d : String) :
    jsOrStr (some s) d = s := by
  simp [jsOrStr, h]

theorem jsOrStr_some_empty_default (c : String) : jsOrStr (some c) "" = c := by
  by_cases h : c = ""
  · simp [jsOrStr, h]
  · simp [jsOrStr, h]

/-- Folding the load loop over a saved list whose keys are all canonical
decimal renderings of nonzero numbers, and whose entries at key `k` all
equal `e`: the result at `k` is `e` when `k` occurs, else whatever the
accumulator held. -/
theorem load_fold_saved (k : String) (n : Nat) (e : WLEntry)
    (hk : jsToNat k = some n) (hk0 : n ≠ 0) (hkc : toString n = k)
    (htl : e.target_lang ≠ "") (hsv : e.service ≠ "")
    (hnorm : jsToLower e.service = e.service) (hpr : e.pronouns ≠ "") :
    ∀ (l : List (String × WLEntry)) (acc : Whitelist),
      (∀ p ∈ l, ∃ m : Nat, m ≠ 0 ∧ jsToNat p.1 = some m ∧ toString m = p.1) →
      (∀ p ∈ l, p.1 = k → p.2 = e) →
      wlGet ((saveWhitelist l).foldl loadStep acc) k
        = if l.any (fun p => p.1 == k) then some e else wlGet acc k := by
  intro l
  induction l with
  | nil =>
    intro acc _ _
    simp [saveWhitelist]
  | cons p t ih =>
    intro acc hkeys hats
    obtain ⟨m, hm0, hmp, hmc⟩ := hkeys p (List.mem_cons_self p t)
    have hkeys2 : ∀ q ∈ t, ∃ m2 : Nat, m2 ≠ 0 ∧ jsToNat q.1 = some m2 ∧ toString m2 = q.1 :=
      fun q hq => hkeys q (List.mem_cons_of_mem p hq)
    have hats2 : ∀ q ∈ t, q.1 = k → q.2 = e :=
      fun q hq => hats q (List.mem_cons_of_mem p hq)
    have hsave : saveWhitelist (p :: t)
        = ({ id := jsToNat p.1, target_lang := some p.2.target_lang,
             service := some p.2.service, pronouns := some p.2.pronouns,
             comment := some p.2.comment } : RawUser) :: saveWhitelist t := rfl
    rw [hsave, List.foldl_cons]
    by_cases hpk : p.1 = k
    · have hpe : p.2 = e := hats p (List.mem_cons_self p t) hpk
      have hmn : m = n := by
        rw [hpk, hk] at hmp
        exact (Option.some.inj hmp).symm
      subst hmn
      have hcond : (m != 0 && p.2.target_lang != "" && p.2.service != "") = true := by
        simp [hpe, bne_iff_ne, hm0, htl, hsv]
      have hstep : loadStep acc
          { id := jsToNat p.1, target_lang := some p.2.target_lang,
            service := some p.2.service, pronouns := some p.2.pronouns,
            comment := some p.2.comment } = wlSet acc k e := by
        simp only [loadStep, hmp]
        rw [if_pos hcond, hkc, hpe, hnorm,
          jsOrStr_some_of_ne hpr "none", jsOrStr_some_empty_default]
      rw [hstep, ih (wlSet acc k e) hkeys2 hats2]
      have hany : (p :: t).any (fun q => q.1 == k) = true := by
        simp [List.any_cons, hpk]
      rw [if_pos hany]
      by_cases ht : t.any (fun q => q.1 == k) = true
      · rw [if_pos ht]
      · rw [if_neg ht, wlGet_wlSet_self]
    · have hget : wlGet (loadStep acc
          { id := jsToNat p.1, target_lang := some p.2.target_lang,
            service := some p.2.service, pronouns := some p.2.pronouns,
            comment := some p.2.comment }) k = wlGet acc k := by
        simp only [loadStep, hmp]
        by_cases hcond : (m != 0 && p.2.target_lang != "" && p.2.service != "") = true
        · rw [if_pos hcond]
          have hne : toString m ≠ k := by
            rw [hmc]
            exact hpk
          exact wlGet_wlSet_ne acc (toString m) k _ hne
        · rw [if_neg hcond]
      rw [ih _ hkeys2 hats2, hget]
      have hany : (p :: t).any (fun q => q.1 == k) = t.any (fun q => q.1 == k) := by
        simp [List.any_cons, hpk]
      rw [hany]

/-- C5 counterexample: user id `"0"` passes the admin validation
(`^\d+$`), but `Number("0")` is `0`, which is falsy, so `load()` drops the
entry after a save: the round trip loses it instead of reproducing it. -/
theorem c5_counterexample :
    ¬ (wlGet (loadWhitelist (.ok ⟨some (saveWhitelist
          (wlSet [] "0" ⟨"FR", "deepl", "none", ""⟩))⟩)) "0"
        = some ⟨"FR", "deepl", "none", ""⟩) := by
  decide

/-- C5 (amended): for a valid entry — target language non-empty, service
`deepl` or `chatgpt`, pronouns non-empty — upserted at a key that is the
canonical decimal rendering of a nonzero number, into a whitelist all of
whose keys are such canonical renderings, save followed by load reproduces
the entry at that key field-for-field. -/
theorem c5_roundtrip_amended (w : Whitelist) (k : String) (e : WLEntry) (n : Nat)
    (hk : jsToNat k = some n) (hk0 : n ≠ 0) (hkc : toString n = k)
    (hw : ∀ p ∈ w, ∃ m : Nat, m ≠ 0 ∧ jsToNat p.1 = some m ∧ toString m = p.1)
    (htl : e.target_lang ≠ "")
    (hsv : e.service = "deepl" ∨ e.service = "chatgpt")
    (hpr : e.pronouns ≠ "") :
    wlGet (loadWhitelist (.ok ⟨some (saveWhitelist (wlSet w k e))⟩)) k = some e := by
  have hsvne : e.service ≠ "" := by
    rcases hsv with h | h <;> simp [h]
  have hnorm : jsToLower e.service = e.service := by
    rcases hsv with h | h <;> rw [h] <;> rfl
  have hkeys : ∀ p ∈ wlSet w k e, ∃ m : Nat, m ≠ 0 ∧ jsToNat p.1 = some m ∧ toString m = p.1 := by
    intro p hp
    rcases mem_wlSet hp with ⟨hin, _⟩ | heq
    · exact hw p hin
    · exact ⟨n, hk0, by rw [heq]; exact hk, by rw [heq]; exact hkc⟩
  have hats : ∀ p ∈ wlSet w k e, p.1 = k → p.2 = e := by
    intro p hp hpk
    rcases mem_wlSet hp with ⟨_, hne⟩ | heq
    · exact absurd hpk hne
    · rw [heq]
  show wlGet ((saveWhitelist (wlSet w k e)).foldl loadStep []) k = some e
  rw [load_fold_saved k n e hk hk0 hkc htl hsvne hnorm hpr (wlSet w k e) [] hkeys hats]
  rw [if_pos (wlSet_any_self w k e)]

/-- C5 witness: the amended theorem at user id `"555"`, over a whitelist
already holding user `"7"`. -/
theorem c5_witness :
    wlGet (loadWhitelist (.ok ⟨some (saveWhitelist
        (wlSet [("7", ⟨"EN", "chatgpt", "she/her", "friend"⟩)]
          "555" ⟨"FR", "deepl", "none", ""⟩))⟩)) "555"
      = some ⟨"FR", "deepl", "none", ""⟩ :=
  c5_roundtrip_amended [("7", ⟨"EN", "chatgpt", "she/her", "friend"⟩)]
    "555" ⟨"FR", "deepl", "none", ""⟩ 555 (by decide) (by decide) (by decide)
    (by
      intro p hp
      rcases List.mem_singleton.mp hp with rfl
      exact ⟨7, by decide, by decide, by decide⟩)
    (by decide) (Or.inl rfl) (by decide)

end TgTranslator
